import Mathlib

/-!
Shallow embedding of the batch classification orchestrator in
`src/frontend/src/components/AnimalClassifierApp.jsx` (component
`CattleClassifierMultiple`), together with the helper `analyzeImage`.

Modelling conventions:
* The React state `images` is a `List ImageItem` in insertion order; the
  boolean state `analyzingAll` together with `images` forms a `Session`.
* The remote endpoint (`fetch` to `/predict`) is an environment
  `env : Nat → String → FetchOutcome` giving, per `(imageId, file)` pair, the
  outcome of one call; `JS` floats (`confidence`) are modelled as `Rat` and
  `toFixed(1)` as exact decimal rounding.
* `handleAnalyzeImage` closes over the `images` snapshot of the render in
  which it was created (used by its `images.find`), while every
  `setImages(prev => ...)` update is applied to the current store.  The
  embedding therefore takes both a `snapshot` and the current `store`; for a
  standalone invocation the two coincide, and during `handleAnalyzeAll` the
  snapshot is fixed at sweep start.
* Asynchronous effects are made explicit: the list `calls` records, in order,
  the ids for which the classification client was invoked, and `settles`
  records the ids whose cosmetic `setTimeout(..., 2000)` settle timer was
  scheduled (firing a timer is the separate function `applySettle`).
-/

/-- One entry of `data.top_5_predictions` in the backend response. -/
structure Prediction where
  breed : String
  confidence : Rat
deriving DecidableEq, Repr

/-- The JSON body of a successful `/predict` response. -/
structure PredictResponse where
  predicted_breed : String
  confidence : Rat
  top_5_predictions : List Prediction
deriving DecidableEq, Repr

/-- `(x).toFixed(1)` on a nonnegative number, modelled as exact rounding of the
decimal value to one fractional digit (round half up). -/
def toFixed1 (x : Rat) : Rat := (round (10 * x) : Int) / 10

/-- The object returned by `analyzeImage` on success (lines 27-44); the fields
not used by any state transition (`detectionStages` constants,
`calculations`) are carried only through `elapsed`, the measured latency that
is their sole varying ingredient. -/
structure ClassificationResult where
  id : Nat
  breed : String
  confidence : Rat
  top5 : List Prediction
  elapsed : Rat
deriving DecidableEq, Repr

/-- Outcome of one `fetch` to the `/predict` endpoint. -/
inductive FetchOutcome where
  /-- `response.ok` with a JSON body. -/
  | ok (resp : PredictResponse) (elapsed : Rat)
  /-- `!response.ok`: status code and `response.text()`. -/
  | httpError (status : Nat) (body : String)
  /-- the `fetch` promise itself rejects (transport failure) with a message. -/
  | networkError (msg : String)
deriving DecidableEq, Repr

/-- `analyzeImage` (lines 7-45): on `!response.ok` it throws
`Error(errorText || Server error: status)`; on success it maps the backend
response to the component model.  Throwing is modelled as `Except.error`. -/
def analyzeImage (imageId : Nat) (outcome : FetchOutcome) :
    Except String ClassificationResult :=
  match outcome with
  | .ok resp elapsed =>
      .ok { id := imageId
            breed := resp.predicted_breed
            confidence := toFixed1 resp.confidence
            top5 := resp.top_5_predictions
            elapsed := toFixed1 elapsed }
  | .httpError status body =>
      .error (if body = "" then "Server error: " ++ toString status else body)
  | .networkError msg => .error msg

/-- One element of the `images` state array (shape fixed at lines 115-123). -/
structure ImageItem where
  id : Nat
  file : String
  preview : Option String
  analyzing : Bool
  result : Option ClassificationResult
  currentStage : Nat
  error : Option String
deriving DecidableEq, Repr

/-- `images.find(img => img.id === imageId)`. -/
def getItem (store : List ImageItem) (imageId : Nat) : Option ImageItem :=
  store.find? (fun img => img.id = imageId)

/-- The `prevImages.map(img => img.id === imageId ? f(img) : img)` update
pattern used by every `setImages` call in the component. -/
def updateById (store : List ImageItem) (imageId : Nat)
    (f : ImageItem → ImageItem) : List ImageItem :=
  store.map fun img => if img.id = imageId then f img else img

/-- Lines 133-137: mark the item as analyzing, reset its stage, clear a prior
error. -/
def setAnalyzing (store : List ImageItem) (imageId : Nat) : List ImageItem :=
  updateById store imageId
    fun img => { img with analyzing := true, currentStage := 0, error := none }

/-- Lines 142-146: write the classification result back. -/
def applyResult (store : List ImageItem) (imageId : Nat)
    (r : ClassificationResult) : List ImageItem :=
  updateById store imageId fun img => { img with result := some r }

/-- Lines 148-154: the body of the 2000-unit settle timer. -/
def applySettle (store : List ImageItem) (imageId : Nat) : List ImageItem :=
  updateById store imageId fun img => { img with analyzing := false }

/-- Lines 156-160: the catch handler's state write. -/
def applyFailure (store : List ImageItem) (imageId : Nat) (msg : String) :
    List ImageItem :=
  updateById store imageId
    fun img => { img with analyzing := false, error := some msg }

/-- `err.message || 'Analysis failed'` (line 158). -/
def errMessage (msg : String) : String :=
  if msg = "" then "Analysis failed" else msg

/-- Result of one `handleAnalyzeImage` invocation: final store, ids sent to
the classification client (in order), and ids whose settle timer was
scheduled. -/
structure AnalyzeOutput where
  store : List ImageItem
  calls : List Nat
  settles : List Nat
deriving DecidableEq, Repr

/-- `handleAnalyzeImage` (lines 129-162).  `snapshot` is the `images` closure
of the creating render (only its `find` reads it); `store` is the current
state every functional update is applied to. -/
def handleAnalyzeImage (env : Nat → String → FetchOutcome)
    (snapshot store : List ImageItem) (imageId : Nat) : AnalyzeOutput :=
  match getItem snapshot imageId with
  | none => ⟨store, [], []⟩
  | some image =>
      let s1 := setAnalyzing store imageId
      match analyzeImage imageId (env imageId image.file) with
      | .ok r => ⟨applyResult s1 imageId r, [imageId], [imageId]⟩
      | .error e => ⟨applyFailure s1 imageId (errMessage e), [imageId], []⟩

/-- The `for ... await` loop of `handleAnalyzeAll` (lines 169-171), threading
the store through the sequential single-item analyzes. -/
def runSweep (env : Nat → String → FetchOutcome) (snapshot : List ImageItem) :
    List ImageItem → List Nat → AnalyzeOutput
  | store, [] => ⟨store, [], []⟩
  | store, imageId :: rest =>
      let o1 := handleAnalyzeImage env snapshot store imageId
      let o2 := runSweep env snapshot o1.store rest
      ⟨o2.store, o1.calls ++ o2.calls, o1.settles ++ o2.settles⟩

/-- Component-level state: the `images` array and the `analyzingAll` flag. -/
structure Session where
  images : List ImageItem
  analyzingAll : Bool
deriving DecidableEq, Repr

/-- `images.filter(img => !img.result)` (line 167), reduced to the ids the
loop passes to `handleAnalyzeImage`. -/
def unanalyzedIds (store : List ImageItem) : List Nat :=
  (store.filter fun img => img.result.isNone).map (·.id)

/-- `handleAnalyzeAll` (lines 164-174): sets `analyzingAll`, sweeps every item
lacking a result sequentially in store order, then clears `analyzingAll`.
The function body performs no check of the incoming `analyzingAll` flag. -/
def handleAnalyzeAll (env : Nat → String → FetchOutcome) (s : Session) :
    Session × AnalyzeOutput :=
  let o := runSweep env s.images s.images (unanalyzedIds s.images)
  (⟨o.store, false⟩, o)

/-- `handleRemoveImage` (lines 176-178). -/
def handleRemoveImage (store : List ImageItem) (imageId : Nat) :
    List ImageItem :=
  store.filter fun img => img.id ≠ imageId

/-- `handleReset` (lines 180-183) clears all items. -/
def handleReset : List ImageItem := []

/-- The per-file item constructed in `handleFiles` (lines 115-123), with
`imageId = Date.now() + index` (line 104); `now` stands for `Date.now()`. -/
def mkQueuedItem (now index : Nat) (file : String) : ImageItem :=
  { id := now + index
    file := file
    preview := none
    analyzing := false
    result := none
    currentStage := 0
    error := none }

/-- `files.map((file, index) => ...)` of `handleFiles`, index made explicit. -/
def newItemsFrom (now index : Nat) : List String → List ImageItem
  | [] => []
  | file :: rest => mkQueuedItem now index file :: newItemsFrom now (index + 1) rest

/-- The batch of fresh items one `handleFiles` call creates. -/
def newItems (now : Nat) (files : List String) : List ImageItem :=
  newItemsFrom now 0 files

/-- `handleFiles` (lines 101-127): append the new items to the store.  The
`FileReader.onload` preview write is the separate late `applyPreview`. -/
def handleFiles (store : List ImageItem) (now : Nat) (files : List String) :
    List ImageItem :=
  store ++ newItems now files

/-- A sequence of `handleFiles` calls, each with its own `Date.now()` value
and asset list. -/
def ingestMany (store : List ImageItem) (batches : List (Nat × List String)) :
    List ImageItem :=
  batches.foldl (fun st b => handleFiles st b.1 b.2) store

/-- The `reader.onload` callback of `handleFiles` (lines 106-112): the late
asynchronous preview write, keyed by id. -/
def applyPreview (store : List ImageItem) (imageId : Nat) (dataUrl : String) :
    List ImageItem :=
  updateById store imageId fun img => { img with preview := some dataUrl }

/-- Aggregate statistics returned by `getOverallStats` (lines 185-193). -/
structure OverallStats where
  total : Nat
  analyzed : Nat
  uniqueBreeds : Nat
  avgConfidence : Rat
deriving DecidableEq, Repr

/-- `getOverallStats` (lines 185-193): `analyzed` are the items holding a
result; `uniqueBreeds` is `new Set(...).size` over their breeds;
`avgConfidence` is the mean confidence `toFixed(1)`, `0` when nothing is
analyzed. -/
def getOverallStats (store : List ImageItem) : OverallStats :=
  let analyzed := store.filterMap fun img => img.result
  let uniqueBreeds := ((analyzed.map fun r => r.breed).dedup).length
  let avgConfidence : Rat :=
    if analyzed.length > 0 then
      toFixed1 ((analyzed.map fun r => r.confidence).sum / analyzed.length)
    else 0
  { total := store.length
    analyzed := analyzed.length
    uniqueBreeds := uniqueBreeds
    avgConfidence := avgConfidence }

/-- An item is in a terminal lifecycle state — `Completed` (a result is
written) or `Failed` (an error is written). -/
def isTerminal (img : ImageItem) : Bool :=
  img.result.isSome || img.error.isSome

/-- Line 365: the Analyze All button's `disabled` condition. -/
def analyzeAllButtonDisabled (s : Session) : Bool :=
  s.analyzingAll || (getOverallStats s.images).analyzed = (getOverallStats s.images).total

/-- Line 523: the per-item Analyze button renders only for an item with no
result that is not analyzing. -/
def analyzeButtonVisible (img : ImageItem) : Bool :=
  img.result.isNone && !img.analyzing

/-- Line 552: the Retry button renders only with an error, no result, not
analyzing. -/
def retryButtonVisible (img : ImageItem) : Bool :=
  img.error.isSome && img.result.isNone && !img.analyzing

/-- The list of item ids in store (insertion) order. -/
def idsOf (store : List ImageItem) : List Nat := store.map fun img => img.id

/-! ### Statistics as worded by the spec (§4.5), for comparison with
`getOverallStats`. -/

/-- Modelled from the spec: `analyzed` = count of items with
`lifecycleState == Completed`, i.e. items holding a result. -/
def specAnalyzedCount (store : List ImageItem) : Nat :=
  (store.filter fun img => img.result.isSome).length

/-- Modelled from the spec: `uniqueLabels` = cardinality of the set of
`result.label` among analyzed items. -/
def specUniqueLabels (store : List ImageItem) : Nat :=
  ((store.filterMap fun img => img.result).map fun r => r.breed).toFinset.card

/-- Modelled from the spec: `averageConfidence` = mean of `result.confidence`
over analyzed items, rounded to 1 decimal; `0` when `analyzed == 0`. -/
def specAverageConfidence (store : List ImageItem) : Rat :=
  if specAnalyzedCount store = 0 then 0
  else toFixed1
    (((store.filterMap fun img => img.result).map fun r => r.confidence).sum
      / specAnalyzedCount store)

/-- Modelled from the spec: the four aggregate statistics of §4.5. -/
def specStats (store : List ImageItem) : OverallStats :=
  { total := store.length
    analyzed := specAnalyzedCount store
    uniqueBreeds := specUniqueLabels store
    avgConfidence := specAverageConfidence store }

/-! ### Concrete fixtures for counterexamples and witnesses -/

/-- An environment where every remote call fails with HTTP 500, body
`boom`. -/
def envFail : Nat → String → FetchOutcome :=
  fun _ _ => FetchOutcome.httpError 500 "boom"

/-- A successful backend response predicting the breed `Gir`. -/
def respGir : PredictResponse :=
  { predicted_breed := "Gir"
    confidence := 90
    top_5_predictions := [{ breed := "Gir", confidence := 90 }] }

/-- A successful backend response predicting the breed `Sahiwal`. -/
def respSahiwal : PredictResponse :=
  { predicted_breed := "Sahiwal"
    confidence := 80
    top_5_predictions := [{ breed := "Sahiwal", confidence := 80 }] }

/-- An environment where every remote call succeeds with `respGir`. -/
def envOk : Nat → String → FetchOutcome :=
  fun _ _ => FetchOutcome.ok respGir 1

/-- An environment answering item 10 with `Gir` (confidence 90) and every
other item with `Sahiwal` (confidence 80). -/
def envAB : Nat → String → FetchOutcome :=
  fun i _ => if i = 10 then FetchOutcome.ok respGir 1 else FetchOutcome.ok respSahiwal 1

/-- A freshly ingested item with id 1. -/
def itemQueued : ImageItem :=
  { id := 1
    file := "a.jpg"
    preview := none
    analyzing := false
    result := none
    currentStage := 0
    error := none }

/-- Item 1 with an analyze call already outstanding. -/
def itemAnalyzing : ImageItem := { itemQueued with analyzing := true }

/-- An unanalyzed item with id 10 (the `A` of the spec's sweep example). -/
def itemA : ImageItem := { itemQueued with id := 10 }

/-- An unanalyzed item with id 11 (the `B` of the spec's sweep example). -/
def itemB : ImageItem := { itemQueued with id := 11, file := "b.jpg" }

/-- Session holding the spec example's two unanalyzed items A and B. -/
def sessAB : Session := { images := [itemA, itemB], analyzingAll := false }

/-- Session with one unanalyzed item while a sweep is (flagged as) already
active. -/
def sessBusy : Session := { images := [itemQueued], analyzingAll := true }

/-- Store after item 1's analyze succeeded (result written, settle timer still
pending). -/
def storeDone : List ImageItem :=
  (handleAnalyzeImage envOk [itemQueued] [itemQueued] 1).store

/-- `storeDone` after a second analyze of item 1 that fails. -/
def storeDoneThenFail : List ImageItem :=
  (handleAnalyzeImage envFail storeDone storeDone 1).store

/-- A completed classification result for the aggregator example:
label `Gir`, confidence 90.0. -/
def resGir : ClassificationResult :=
  { id := 10
    breed := "Gir"
    confidence := 90
    top5 := [{ breed := "Gir", confidence := 90 }]
    elapsed := 1 }

/-- A completed classification result for the aggregator example:
label `Sahiwal`, confidence 80.0. -/
def resSahiwal : ClassificationResult :=
  { id := 11
    breed := "Sahiwal"
    confidence := 80
    top5 := [{ breed := "Sahiwal", confidence := 80 }]
    elapsed := 1 }

/-- Item A completed with confidence 90. -/
def analyzedA : ImageItem := { itemA with result := some resGir }

/-- Item B completed with confidence 80. -/
def analyzedB : ImageItem := { itemB with result := some resSahiwal }

/-- The mapped result `analyzeImage` produces for item 1 when the backend
answers `respGir` with elapsed time 1. -/
def resGirCall : ClassificationResult :=
  { id := 1
    breed := "Gir"
    confidence := toFixed1 90
    top5 := respGir.top_5_predictions
    elapsed := toFixed1 1 }

/-! ### Lemmas about the store primitives -/

theorem getItem_some_id {store : List ImageItem} {i : Nat} {img : ImageItem}
    (h : getItem store i = some img) : img.id = i := by
  have hp := List.find?_some h
  simpa using hp

theorem mem_idsOf_iff {store : List ImageItem} {i : Nat} :
    i ∈ idsOf store ↔ (getItem store i).isSome := by
  rw [getItem, List.find?_isSome, idsOf]
  constructor
  · intro h
    rcases List.mem_map.1 h with ⟨img, hmem, hid⟩
    exact ⟨img, hmem, by simp [hid]⟩
  · rintro ⟨img, hmem, hp⟩
    have hid : img.id = i := by simpa using hp
    exact hid ▸ List.mem_map_of_mem _ hmem

theorem getItem_updateById (store : List ImageItem) (i j : Nat)
    (f : ImageItem → ImageItem) (hf : ∀ img, (f img).id = img.id) :
    getItem (updateById store i f) j
      = (getItem store j).map fun img => if img.id = i then f img else img := by
  induction store with
  | nil => rfl
  | cons hd tl ih =>
      have hid : (if hd.id = i then f hd else hd).id = hd.id := by
        by_cases hi : hd.id = i <;> simp [hi, hf]
      by_cases hj : hd.id = j
      · rw [updateById, List.map_cons, getItem,
          List.find?_cons_of_pos _ (by simpa [hid] using hj), getItem,
          List.find?_cons_of_pos _ (by simpa using hj)]
        simp
      · rw [updateById, List.map_cons, getItem,
          List.find?_cons_of_neg _ (by simpa [hid] using hj), getItem,
          List.find?_cons_of_neg _ (by simpa using hj)]
        simpa [updateById, getItem] using ih

theorem getItem_updateById_self {store : List ImageItem} {i : Nat}
    {img : ImageItem} (f : ImageItem → ImageItem)
    (hf : ∀ im, (f im).id = im.id) (h : getItem store i = some img) :
    getItem (updateById store i f) i = some (f img) := by
  rw [getItem_updateById store i i f hf, h, Option.map_some',
    if_pos (getItem_some_id h)]

theorem getItem_updateById_other {store : List ImageItem} {i j : Nat}
    (f : ImageItem → ImageItem) (hf : ∀ im, (f im).id = im.id) (hne : j ≠ i) :
    getItem (updateById store i f) j = getItem store j := by
  rw [getItem_updateById store i j f hf]
  cases h : getItem store j with
  | none => rfl
  | some img =>
      rw [Option.map_some', if_neg]
      rw [getItem_some_id h]
      exact hne

theorem idsOf_updateById (store : List ImageItem) (i : Nat)
    (f : ImageItem → ImageItem) (hf : ∀ img, (f img).id = img.id) :
    idsOf (updateById store i f) = idsOf store := by
  rw [idsOf, updateById, List.map_map, idsOf]
  congr 1
  funext img
  by_cases hi : img.id = i <;> simp [hi, hf]

theorem updateById_of_absent : ∀ (store : List ImageItem) (i : Nat)
    (f : ImageItem → ImageItem), (∀ img ∈ store, img.id ≠ i) →
    updateById store i f = store
  | [], _, _, _ => rfl
  | hd :: tl, i, f, h => by
      rw [updateById, List.map_cons, if_neg (h hd (by simp))]
      have htl := updateById_of_absent tl i f fun img hm => h img (by simp [hm])
      rw [updateById] at htl
      rw [htl]

theorem handleRemoveImage_not_mem (store : List ImageItem) (i : Nat) :
    ∀ img ∈ handleRemoveImage store i, img.id ≠ i := by
  intro img hm
  rw [handleRemoveImage] at hm
  simpa using List.of_mem_filter hm

theorem idsOf_setAnalyzing (store : List ImageItem) (i : Nat) :
    idsOf (setAnalyzing store i) = idsOf store := by
  rw [setAnalyzing]
  refine idsOf_updateById store i _ ?_
  intro img
  rfl

theorem idsOf_applyResult (store : List ImageItem) (i : Nat)
    (r : ClassificationResult) :
    idsOf (applyResult store i r) = idsOf store := by
  rw [applyResult]
  refine idsOf_updateById store i _ ?_
  intro img
  rfl

theorem idsOf_applyFailure (store : List ImageItem) (i : Nat) (m : String) :
    idsOf (applyFailure store i m) = idsOf store := by
  rw [applyFailure]
  refine idsOf_updateById store i _ ?_
  intro img
  rfl

theorem getItem_setAnalyzing_other (store : List ImageItem) {i j : Nat}
    (hne : j ≠ i) : getItem (setAnalyzing store i) j = getItem store j := by
  rw [setAnalyzing]
  refine getItem_updateById_other _ ?_ hne
  intro img
  rfl

theorem getItem_applyResult_other (store : List ImageItem) {i j : Nat}
    (r : ClassificationResult) (hne : j ≠ i) :
    getItem (applyResult store i r) j = getItem store j := by
  rw [applyResult]
  refine getItem_updateById_other _ ?_ hne
  intro img
  rfl

theorem getItem_applyFailure_other (store : List ImageItem) {i j : Nat}
    (m : String) (hne : j ≠ i) :
    getItem (applyFailure store i m) j = getItem store j := by
  rw [applyFailure]
  refine getItem_updateById_other _ ?_ hne
  intro img
  rfl

theorem getItem_setAnalyzing_self {store : List ImageItem} {i : Nat}
    {img : ImageItem} (h : getItem store i = some img) :
    getItem (setAnalyzing store i) i
      = some { img with analyzing := true, currentStage := 0, error := none } := by
  rw [setAnalyzing]
  refine getItem_updateById_self _ ?_ h
  intro im
  rfl

theorem getItem_applyResult_self {store : List ImageItem} {i : Nat}
    {img : ImageItem} (r : ClassificationResult)
    (h : getItem store i = some img) :
    getItem (applyResult store i r) i = some { img with result := some r } := by
  rw [applyResult]
  refine getItem_updateById_self _ ?_ h
  intro im
  rfl

theorem getItem_applyFailure_self {store : List ImageItem} {i : Nat}
    {img : ImageItem} (m : String) (h : getItem store i = some img) :
    getItem (applyFailure store i m) i
      = some { img with analyzing := false, error := some m } := by
  rw [applyFailure]
  refine getItem_updateById_self _ ?_ h
  intro im
  rfl

/-! ### Lemmas about the per-item analyze operation -/

theorem handleAnalyzeImage_calls_of_found (env : Nat → String → FetchOutcome)
    (snapshot store : List ImageItem) {i : Nat}
    (h : (getItem snapshot i).isSome) :
    (handleAnalyzeImage env snapshot store i).calls = [i] := by
  rcases Option.isSome_iff_exists.1 h with ⟨img, himg⟩
  cases ho : analyzeImage i (env i img.file) <;>
    simp [handleAnalyzeImage, himg, ho]

theorem handleAnalyzeImage_idsOf (env : Nat → String → FetchOutcome)
    (snapshot store : List ImageItem) (i : Nat) :
    idsOf (handleAnalyzeImage env snapshot store i).store = idsOf store := by
  cases h : getItem snapshot i with
  | none => simp [handleAnalyzeImage, h]
  | some img =>
      cases ho : analyzeImage i (env i img.file) with
      | ok r =>
          simp only [handleAnalyzeImage, h, ho]
          rw [idsOf_applyResult, idsOf_setAnalyzing]
      | error e =>
          simp only [handleAnalyzeImage, h, ho]
          rw [idsOf_applyFailure, idsOf_setAnalyzing]

theorem handleAnalyzeImage_getItem_other (env : Nat → String → FetchOutcome)
    (snapshot store : List ImageItem) {i j : Nat} (hne : j ≠ i) :
    getItem (handleAnalyzeImage env snapshot store i).store j
      = getItem store j := by
  cases h : getItem snapshot i with
  | none => simp [handleAnalyzeImage, h]
  | some img =>
      cases ho : analyzeImage i (env i img.file) with
      | ok r =>
          simp only [handleAnalyzeImage, h, ho]
          rw [getItem_applyResult_other _ _ hne, getItem_setAnalyzing_other _ hne]
      | error e =>
          simp only [handleAnalyzeImage, h, ho]
          rw [getItem_applyFailure_other _ _ hne, getItem_setAnalyzing_other _ hne]

theorem handleAnalyzeImage_terminal (env : Nat → String → FetchOutcome)
    (snapshot store : List ImageItem) {i : Nat}
    (hsnap : (getItem snapshot i).isSome)
    (hstore : (getItem store i).isSome) :
    ∃ img, getItem (handleAnalyzeImage env snapshot store i).store i = some img
      ∧ isTerminal img = true := by
  rcases Option.isSome_iff_exists.1 hsnap with ⟨im0, h0⟩
  rcases Option.isSome_iff_exists.1 hstore with ⟨im1, h1⟩
  have h2 : getItem (setAnalyzing store i) i
      = some { im1 with analyzing := true, currentStage := 0, error := none } :=
    getItem_setAnalyzing_self h1
  cases ho : analyzeImage i (env i im0.file) with
  | ok r =>
      refine ⟨{ im1 with analyzing := true, currentStage := 0, error := none, result := some r }, ?_, by simp [isTerminal]⟩
      simp only [handleAnalyzeImage, h0, ho]
      exact getItem_applyResult_self r h2
  | error e =>
      refine ⟨{ im1 with analyzing := false, currentStage := 0, error := some (errMessage e) }, ?_, by simp [isTerminal]⟩
      simp only [handleAnalyzeImage, h0, ho]
      exact getItem_applyFailure_self _ h2

/-! ### Lemmas about the sequential sweep -/

theorem runSweep_calls (env : Nat → String → FetchOutcome)
    (snapshot : List ImageItem) :
    ∀ (ids : List Nat) (store : List ImageItem),
      (∀ i ∈ ids, (getItem snapshot i).isSome) →
      (runSweep env snapshot store ids).calls = ids
  | [], _, _ => rfl
  | i :: rest, store, h => by
      rw [runSweep]
      have hc := handleAnalyzeImage_calls_of_found env snapshot store
        (h i (by simp))
      have hr := runSweep_calls env snapshot rest
        (handleAnalyzeImage env snapshot store i).store
        fun j hj => h j (by simp [hj])
      simp [hc, hr]

theorem runSweep_idsOf (env : Nat → String → FetchOutcome)
    (snapshot : List ImageItem) :
    ∀ (ids : List Nat) (store : List ImageItem),
      idsOf (runSweep env snapshot store ids).store = idsOf store
  | [], _ => rfl
  | i :: rest, store => by
      rw [runSweep]
      have hr := runSweep_idsOf env snapshot rest
        (handleAnalyzeImage env snapshot store i).store
      simp [hr, handleAnalyzeImage_idsOf]

theorem runSweep_getItem_not_mem (env : Nat → String → FetchOutcome)
    (snapshot : List ImageItem) :
    ∀ (ids : List Nat) (store : List ImageItem) (j : Nat), j ∉ ids →
      getItem (runSweep env snapshot store ids).store j = getItem store j
  | [], _, _, _ => rfl
  | i :: rest, store, j, h => by
      rw [runSweep]
      have hne : j ≠ i := by intro he; exact h (by simp [he])
      have hr := runSweep_getItem_not_mem env snapshot rest
        (handleAnalyzeImage env snapshot store i).store j
        fun hj => h (by simp [hj])
      simp only
      rw [hr, handleAnalyzeImage_getItem_other env snapshot store hne]

theorem runSweep_terminal (env : Nat → String → FetchOutcome)
    (snapshot : List ImageItem) :
    ∀ (ids : List Nat) (store : List ImageItem),
      (∀ i ∈ ids, (getItem snapshot i).isSome) →
      (∀ i ∈ ids, (getItem store i).isSome) →
      ids.Nodup →
      ∀ i ∈ ids, ∃ img,
        getItem (runSweep env snapshot store ids).store i = some img
          ∧ isTerminal img = true
  | [], _, _, _, _ => by intro i hi; cases hi
  | k :: rest, store, hsnap, hstore, hnodup => by
      intro i hi
      have hknotrest : k ∉ rest := (List.nodup_cons.1 hnodup).1
      rcases List.mem_cons.1 hi with hik | hirest
      · subst hik
        rcases handleAnalyzeImage_terminal env snapshot store
          (hsnap i (by simp)) (hstore i (by simp)) with ⟨img, himg, hterm⟩
        refine ⟨img, ?_, hterm⟩
        rw [runSweep]
        simp only
        rw [runSweep_getItem_not_mem env snapshot rest _ i hknotrest, himg]
      · have hstore' : ∀ j ∈ rest,
            (getItem (handleAnalyzeImage env snapshot store k).store j).isSome := by
          intro j hj
          rw [← mem_idsOf_iff, handleAnalyzeImage_idsOf, mem_idsOf_iff]
          exact hstore j (by simp [hj])
        rcases runSweep_terminal env snapshot rest
          (handleAnalyzeImage env snapshot store k).store
          (fun j hj => hsnap j (by simp [hj])) hstore'
          (List.nodup_cons.1 hnodup).2 i hirest with ⟨img, himg, hterm⟩
        refine ⟨img, ?_, hterm⟩
        rw [runSweep]
        simp only
        rw [himg]

theorem unanalyzedIds_present (store : List ImageItem) :
    ∀ i ∈ unanalyzedIds store, (getItem store i).isSome := by
  intro i hi
  rw [unanalyzedIds] at hi
  rcases List.mem_map.1 hi with ⟨img, hmem, hid⟩
  rw [← mem_idsOf_iff, idsOf]
  exact hid ▸ List.mem_map_of_mem _ (List.mem_of_mem_filter hmem)

theorem unanalyzedIds_nodup {store : List ImageItem}
    (h : (idsOf store).Nodup) : (unanalyzedIds store).Nodup := by
  rw [unanalyzedIds]
  exact List.Nodup.sublist ((List.filter_sublist store).map _) h

/-! ### Lemmas about ingestion -/

theorem newItemsFrom_length (now : Nat) :
    ∀ (index : Nat) (files : List String),
      (newItemsFrom now index files).length = files.length
  | _, [] => rfl
  | index, _ :: rest => by
      rw [newItemsFrom, List.length_cons, List.length_cons,
        newItemsFrom_length now (index + 1) rest]

theorem newItemsFrom_files (now : Nat) :
    ∀ (index : Nat) (files : List String),
      (newItemsFrom now index files).map (fun img => img.file) = files
  | _, [] => rfl
  | index, file :: rest => by
      rw [newItemsFrom, List.map_cons, newItemsFrom_files now (index + 1) rest]
      rfl

theorem newItemsFrom_queued (now : Nat) :
    ∀ (index : Nat) (files : List String), ∀ itm ∈ newItemsFrom now index files,
      itm.analyzing = false ∧ itm.result = none ∧ itm.error = none
        ∧ itm.currentStage = 0 ∧ itm.preview = none
  | _, [], _, hm => by cases hm
  | index, file :: rest, itm, hm => by
      rw [newItemsFrom] at hm
      rcases List.mem_cons.1 hm with he | hm'
      · subst he
        exact ⟨rfl, rfl, rfl, rfl, rfl⟩
      · exact newItemsFrom_queued now (index + 1) rest itm hm'

theorem newItemsFrom_ids (now : Nat) :
    ∀ (index : Nat) (files : List String),
      idsOf (newItemsFrom now index files)
        = List.range' (now + index) files.length
  | _, [] => rfl
  | index, file :: rest => by
      rw [newItemsFrom, idsOf, List.map_cons, List.length_cons,
        List.range'_succ]
      have ih := newItemsFrom_ids now (index + 1) rest
      rw [idsOf] at ih
      rw [ih, Nat.add_assoc]
      rfl

theorem ingestMany_length :
    ∀ (batches : List (Nat × List String)) (store : List ImageItem),
      (ingestMany store batches).length
        = store.length + (batches.map fun b => b.2.length).sum
  | [], store => by simp [ingestMany]
  | b :: rest, store => by
      rw [ingestMany, List.foldl_cons]
      have ih := ingestMany_length rest (handleFiles store b.1 b.2)
      rw [ingestMany] at ih
      rw [ih, handleFiles, List.length_append, newItems,
        newItemsFrom_length, List.map_cons, List.sum_cons]
      omega

/-! ### Lemmas about the aggregator -/

theorem filterMap_result_length :
    ∀ store : List ImageItem,
      (store.filterMap fun img => img.result).length
        = (store.filter fun img => img.result.isSome).length
  | [] => rfl
  | hd :: tl => by
      cases h : hd.result <;>
        simp [List.filterMap_cons, List.filter_cons, h,
          filterMap_result_length tl]

/-! ### Claim theorems -/

/-- C10: invoking the per-item analyze with an id absent from the store
returns immediately (line 131's early return): the store is unchanged, no
call is issued to the classification client, and no settle timer is
scheduled. -/
theorem analyze_absent_id_noop (env : Nat → String → FetchOutcome)
    (store : List ImageItem) (i : Nat) (h : getItem store i = none) :
    handleAnalyzeImage env store store i = ⟨store, [], []⟩ := by
  simp [handleAnalyzeImage, h]

/-- Witness for `analyze_absent_id_noop`: id 2 is absent from the one-item
store `[itemQueued]`. -/
theorem analyze_absent_id_noop_witness :
    getItem [itemQueued] 2 = none ∧
      handleAnalyzeImage envFail [itemQueued] [itemQueued] 2
        = ⟨[itemQueued], [], []⟩ :=
  ⟨by decide, analyze_absent_id_noop envFail [itemQueued] 2 (by decide)⟩

/-- C1 counterexample: item 1 is already `Analyzing`, yet invoking the
per-item analyze again issues another call to the classification client and
mutates the item — the claimed reentrancy guard does not exist in
`handleAnalyzeImage`. -/
theorem analyze_reentrant_calls_again :
    (handleAnalyzeImage envFail [itemAnalyzing] [itemAnalyzing] 1).calls = [1]
      ∧ (handleAnalyzeImage envFail [itemAnalyzing] [itemAnalyzing] 1).store
        ≠ [itemAnalyzing] := by
  constructor
  · rfl
  · decide

/-- C1 amended: `handleAnalyzeImage` has no per-item reentrancy guard — any
present id triggers exactly one (further) classification-client call, even
when the item is already `Analyzing`; the guard exists only in the UI, which
hides both the Analyze and the Retry button while `analyzing` is true. -/
theorem analyze_no_reentrancy_guard (env : Nat → String → FetchOutcome)
    (snapshot store : List ImageItem) (i : Nat)
    (h : (getItem snapshot i).isSome) :
    (handleAnalyzeImage env snapshot store i).calls = [i] ∧
      ∀ img : ImageItem, img.analyzing = true →
        analyzeButtonVisible img = false ∧ retryButtonVisible img = false := by
  refine ⟨handleAnalyzeImage_calls_of_found env snapshot store h, ?_⟩
  intro img ha
  constructor <;> simp [analyzeButtonVisible, retryButtonVisible, ha]

/-- Witness for `analyze_no_reentrancy_guard` at the analyzing item 1. -/
theorem analyze_no_reentrancy_guard_witness :
    (getItem [itemAnalyzing] 1).isSome = true ∧
      ((handleAnalyzeImage envFail [itemAnalyzing] [itemAnalyzing] 1).calls
          = [1] ∧
        ∀ img : ImageItem, img.analyzing = true →
          analyzeButtonVisible img = false ∧ retryButtonVisible img = false) :=
  ⟨by decide,
    analyze_no_reentrancy_guard envFail [itemAnalyzing] [itemAnalyzing] 1
      (by decide)⟩

/-- C3: sweeps continue on error — for every environment, including ones
where any or all calls fail, the sweep attempts every selected item: the
classification client is called exactly once per item lacking a result, in
store order.  No per-item error escapes the sweep: `handleAnalyzeImage`
absorbs every failure into `applyFailure` (its catch handler), so the
embedding of the sweep is a total function. -/
theorem analyzeAll_continue_on_error (env : Nat → String → FetchOutcome)
    (s : Session) :
    (handleAnalyzeAll env s).2.calls = unanalyzedIds s.images := by
  rw [handleAnalyzeAll]
  exact runSweep_calls env s.images (unanalyzedIds s.images) s.images
    fun i hi => unanalyzedIds_present s.images i hi

/-- C2: `handleAnalyzeAll` selects exactly the items lacking a result, in
store order, and calls the classification client once per selected item in
that order; moreover, after processing any prefix of the selected ids, every
item of the prefix is in a terminal state (`Completed`: result written, or
`Failed`: error written) — so each call begins only after the previous
item's analyze terminated. -/
theorem analyzeAll_sequential_in_order (env : Nat → String → FetchOutcome)
    (s : Session) (hids : (idsOf s.images).Nodup) :
    (handleAnalyzeAll env s).2.calls = unanalyzedIds s.images ∧
      ∀ n : Nat, ∀ i ∈ (unanalyzedIds s.images).take n,
        ∃ img,
          getItem (runSweep env s.images s.images
              ((unanalyzedIds s.images).take n)).store i = some img
            ∧ isTerminal img = true := by
  constructor
  · rw [handleAnalyzeAll]
    exact runSweep_calls env s.images (unanalyzedIds s.images) s.images
      fun i hi => unanalyzedIds_present s.images i hi
  · intro n
    refine runSweep_terminal env s.images _ s.images ?_ ?_ ?_
    · intro i hi
      exact unanalyzedIds_present s.images i (List.take_subset n _ hi)
    · intro i hi
      exact unanalyzedIds_present s.images i (List.take_subset n _ hi)
    · exact List.Nodup.sublist (List.take_sublist n _) (unanalyzedIds_nodup hids)

/-- Witness for `analyzeAll_sequential_in_order`: on the spec's example (A
then B, both unanalyzed), the client is called exactly twice, A first. -/
theorem analyzeAll_sequential_in_order_witness :
    (handleAnalyzeAll envAB sessAB).2.calls = [10, 11] := by
  have h := (analyzeAll_sequential_in_order envAB sessAB (by decide)).1
  rw [h]
  decide

/-- C4 counterexample: with a sweep already flagged active
(`analyzingAll = true`), invoking `handleAnalyzeAll` is not rejected and is
not a no-op: it runs a full (duplicate) sweep, calling the classification
client for the unanalyzed item and mutating the store. -/
theorem analyzeAll_reentrant_not_noop :
    (handleAnalyzeAll envFail sessBusy).2.calls = [1] ∧
      (handleAnalyzeAll envFail sessBusy).1.images ≠ sessBusy.images := by
  constructor
  · rfl
  · decide

/-- C4 amended: the single-active-sweep property is enforced only in the UI —
while `analyzingAll` is true the Analyze All button (the sole trigger of
`handleAnalyzeAll`) is disabled; the function itself reads only `images` and
performs no reentrancy check, so invoked directly it behaves identically
whether or not a sweep is flagged active. -/
theorem analyzeAll_guard_is_ui_only (env : Nat → String → FetchOutcome)
    (s : Session) (h : s.analyzingAll = true) :
    analyzeAllButtonDisabled s = true ∧
      handleAnalyzeAll env s = handleAnalyzeAll env ⟨s.images, false⟩ := by
  constructor
  · simp [analyzeAllButtonDisabled, h]
  · rfl

/-- Witness for `analyzeAll_guard_is_ui_only` on the busy session. -/
theorem analyzeAll_guard_is_ui_only_witness :
    sessBusy.analyzingAll = true ∧
      (analyzeAllButtonDisabled sessBusy = true ∧
        handleAnalyzeAll envFail sessBusy
          = handleAnalyzeAll envFail ⟨sessBusy.images, false⟩) :=
  ⟨rfl, analyzeAll_guard_is_ui_only envFail sessBusy rfl⟩

/-- C5 counterexample: after item 1 completes (result written) and a second
analyze of it fails, the item holds `result` and `errorMessage`
simultaneously: the failure path (line 158) does not clear `result`, so the
mutual-exclusion invariant is violated after this reachable mutation
sequence.  (The component itself renders this combined state, line 704.) -/
theorem result_and_error_both_present :
    (getItem storeDoneThenFail 1).any
      (fun img => img.result.isSome && img.error.isSome) = true := by
  decide

/-- C5 amended: both fields are absent while `Queued` (at ingestion), and a
successful analyze always leaves `errorMessage` absent on the analyzed item;
mutual exclusion does not hold in general — a failing re-analysis of a
completed item keeps `result` while writing `errorMessage`. -/
theorem queued_absent_and_success_clears_error
    (now : Nat) (files : List String) (env : Nat → String → FetchOutcome)
    (snapshot store : List ImageItem) (i : Nat) (img img' : ImageItem)
    (r : ClassificationResult)
    (hsnap : getItem snapshot i = some img)
    (hok : analyzeImage i (env i img.file) = Except.ok r)
    (hstore : getItem store i = some img') :
    (∀ itm ∈ newItems now files, itm.result = none ∧ itm.error = none) ∧
      getItem (handleAnalyzeImage env snapshot store i).store i
        = some { img' with analyzing := true, currentStage := 0, error := none, result := some r } := by
  constructor
  · intro itm hm
    have h := newItemsFrom_queued now 0 files itm hm
    exact ⟨h.2.1, h.2.2.1⟩
  · simp only [handleAnalyzeImage, hsnap, hok]
    exact getItem_applyResult_self r (getItem_setAnalyzing_self hstore)

/-- Witness for `queued_absent_and_success_clears_error`: item 1, environment
`envOk`. -/
theorem queued_absent_and_success_clears_error_witness :
    (∀ itm ∈ newItems 100 ["a.jpg"], itm.result = none ∧ itm.error = none) ∧
      getItem (handleAnalyzeImage envOk [itemQueued] [itemQueued] 1).store 1
        = some { itemQueued with analyzing := true, currentStage := 0, error := none, result := some resGirCall } :=
  queued_absent_and_success_clears_error 100 ["a.jpg"] envOk [itemQueued]
    [itemQueued] 1 itemQueued itemQueued resGirCall rfl rfl rfl

/-- C6: when the analyze call fails with (nonempty) message `m`, the item
becomes `Failed` in one immediate update — `errorMessage := m` and
`analyzing := false` together, no settle timer is scheduled — and its
`result` field is left exactly as it was before the attempt (the record
update below keeps `result := img'.result`). -/
theorem analyze_failure_immediate (env : Nat → String → FetchOutcome)
    (snapshot store : List ImageItem) (i : Nat) (img img' : ImageItem)
    (m : String) (hsnap : getItem snapshot i = some img)
    (herr : analyzeImage i (env i img.file) = Except.error m) (hm : m ≠ "")
    (hstore : getItem store i = some img') :
    (handleAnalyzeImage env snapshot store i).settles = [] ∧
      getItem (handleAnalyzeImage env snapshot store i).store i
        = some { img' with analyzing := false, currentStage := 0, error := some m } := by
  constructor
  · simp [handleAnalyzeImage, hsnap, herr]
  · simp only [handleAnalyzeImage, hsnap, herr]
    rw [errMessage, if_neg hm]
    exact getItem_applyFailure_self m (getItem_setAnalyzing_self hstore)

/-- Witness for `analyze_failure_immediate`: item 1 failing with body
`boom`. -/
theorem analyze_failure_immediate_witness :
    (handleAnalyzeImage envFail [itemQueued] [itemQueued] 1).settles = [] ∧
      getItem (handleAnalyzeImage envFail [itemQueued] [itemQueued] 1).store 1
        = some { itemQueued with analyzing := false, currentStage := 0, error := some "boom" } :=
  analyze_failure_immediate envFail [itemQueued] [itemQueued] 1 itemQueued
    itemQueued "boom" rfl rfl (by decide) rfl

/-- C7: removing an item while its analyze call is outstanding leaves the
store exactly as at removal when the call eventually resolves: the stale
success write, failure write, and settle-timer write all look the id up,
match nothing, and are identity — no entry is resurrected and no other item
is mutated (and the embedding's totality reflects that no exception is
thrown). -/
theorem remove_then_stale_resolution (store : List ImageItem) (i : Nat)
    (r : ClassificationResult) (m : String) :
    applyResult (handleRemoveImage store i) i r = handleRemoveImage store i ∧
      applyFailure (handleRemoveImage store i) i m = handleRemoveImage store i ∧
      applySettle (handleRemoveImage store i) i = handleRemoveImage store i := by
  refine ⟨?_, ?_, ?_⟩
  · rw [applyResult]
    exact updateById_of_absent _ i _ (handleRemoveImage_not_mem store i)
  · rw [applyFailure]
    exact updateById_of_absent _ i _ (handleRemoveImage_not_mem store i)
  · rw [applySettle]
    exact updateById_of_absent _ i _ (handleRemoveImage_not_mem store i)

/-- C8 counterexample: two ingestion calls one time-unit apart (`Date.now()`
returning 100 then 101) produce ids 100, 101, 101 — the generated ids are
not pairwise unique across calls. -/
theorem ingest_ids_collide :
    idsOf (handleFiles (handleFiles [] 100 ["a", "b"]) 101 ["c"])
        = [100, 101, 101] ∧
      ¬ (idsOf (handleFiles (handleFiles [] 100 ["a", "b"]) 101 ["c"])).Nodup := by
  constructor
  · rfl
  · decide

/-- C8 amended: each ingestion call appends exactly its k items at the end of
the store, all `Queued` (no result, no error, not analyzing), in submission
order, so N calls grow the store by the sum of their batch sizes; the ids
within a single call are pairwise unique, but uniqueness across calls is not
guaranteed (time-based id generation — see `ingest_ids_collide`). -/
theorem ingest_appends_queued (store : List ImageItem) (now : Nat)
    (files : List String) (batches : List (Nat × List String)) :
    handleFiles store now files = store ++ newItems now files ∧
      (newItems now files).length = files.length ∧
      (newItems now files).map (fun img => img.file) = files ∧
      (∀ itm ∈ newItems now files,
        itm.analyzing = false ∧ itm.result = none ∧ itm.error = none) ∧
      (idsOf (newItems now files)).Nodup ∧
      (ingestMany store batches).length
        = store.length + (batches.map fun b => b.2.length).sum := by
  refine ⟨rfl, newItemsFrom_length now 0 files, newItemsFrom_files now 0 files,
    ?_, ?_, ingestMany_length batches store⟩
  · intro itm hm
    have h := newItemsFrom_queued now 0 files itm hm
    exact ⟨h.1, h.2.1, h.2.2.1⟩
  · rw [newItems, newItemsFrom_ids now 0 files]
    exact List.nodup_range' _ _

/-- C9: the aggregator agrees with the spec's four statistics on every store
snapshot — `total` is the item count, `analyzed` the count of completed
items, `uniqueBreeds` the cardinality of the set of labels among analyzed
items, `avgConfidence` the 1-decimal-rounded mean confidence (0 with nothing
analyzed) — and on the spec's example (confidences 90 and 80, labels Gir and
Sahiwal) it yields average 85.0 and 2 unique labels. -/
theorem getOverallStats_correct :
    (∀ store : List ImageItem, getOverallStats store = specStats store) ∧
      (getOverallStats [analyzedA, analyzedB]).avgConfidence = 85 ∧
      (getOverallStats [analyzedA, analyzedB]).uniqueBreeds = 2 ∧
      (getOverallStats [analyzedA, analyzedB]).total = 2 ∧
      (getOverallStats [analyzedA, analyzedB]).analyzed = 2 := by
  refine ⟨?_, ?_, by decide, by decide, by decide⟩
  · intro store
    have hlen := filterMap_result_length store
    simp only [getOverallStats, specStats, OverallStats.mk.injEq]
    refine ⟨trivial, hlen, ?_, ?_⟩
    · rw [specUniqueLabels, List.card_toFinset]
    · simp only [specAverageConfidence, specAnalyzedCount]
      rw [← hlen]
      rcases Nat.eq_zero_or_pos (store.filterMap fun img => img.result).length
        with h0 | hpos
      · simp [h0]
      · rw [if_pos hpos, if_neg (Nat.pos_iff_ne_zero.1 hpos)]
  · show toFixed1 ((resGir.confidence + (resSahiwal.confidence + 0))
        / ((2 : Nat) : Rat)) = 85
    norm_num [toFixed1, resGir, resSahiwal]
